import Mathlib

/-!
# Verification of the todo-k8s HTTP API core (src/api/server.js)

A shallow embedding of the request-handling core of `src/api/server.js`:
the in-memory todo store, the validation schemas, and the eight `/v1/todos`
route handlers.  JavaScript strings are modelled as Lean `String`s, but the
string operations the handlers use (`trim`, `toLowerCase`, `includes`,
relational comparison) are re-implemented over `String.data` so that every
definition is kernel-computable.  Numeric query/path parameters are modelled
as `Option Int`: `none` stands for an absent parameter (for query values)
or for a `NaN` result of `Number(...)` (for the `:id` path segment, where
`NaN === x` is false for every `x`).  Timestamps (`new Date().toISOString()`)
are opaque strings passed in as a `now` argument.
-/

/-- Lexicographic comparison of char lists, mirroring the JavaScript `<`
relational operator on strings (code-unit-wise comparison; identical to
code-point comparison for the ASCII ISO-8601 timestamps the server sorts). -/
def charListLt : List Char → List Char → Bool
  | [], [] => false
  | [], _ :: _ => true
  | _ :: _, [] => false
  | a :: as, b :: bs =>
    if a < b then true
    else if b < a then false
    else charListLt as bs

/-- JavaScript `a < b` on strings. -/
def jsStrLt (a b : String) : Bool := charListLt a.data b.data

/-- JavaScript `String.prototype.trim()`: strip whitespace from both ends. -/
def jsTrim (s : String) : String :=
  ⟨((s.data.dropWhile Char.isWhitespace).reverse.dropWhile Char.isWhitespace).reverse⟩

/-- JavaScript `String.prototype.toLowerCase()` (ASCII case mapping). -/
def jsToLower (s : String) : String := ⟨s.data.map Char.toLower⟩

/-- Substring containment on lists: `sub` occurs contiguously in `hay`. -/
def listContainsSub (hay sub : List Char) : Bool :=
  (List.range (hay.length + 1)).any (fun i => sub.isPrefixOf (hay.drop i))

/-- JavaScript `String.prototype.includes`. -/
def jsIncludes (s sub : String) : Bool := listContainsSub s.data sub.data

/-- A todo record (server.js lines 45-53): `id` is the JS number (integer),
`createdAt`/`updatedAt` are ISO-8601 timestamp strings. -/
structure Todo where
  id : Int
  text : String
  done : Bool
  createdAt : String
  updatedAt : String
deriving DecidableEq, Repr

/-- The mutable module state of server.js: the `todos` array (line 45) and
the `nextId` counter (line 54). -/
structure StoreState where
  todos : List Todo
  nextId : Int
deriving DecidableEq, Repr

/-- The startup state: one pre-seeded todo with id 1, `nextId = 2`.  `boot`
is the wall-clock timestamp taken at module load. -/
def initState (boot : String) : StoreState :=
  { todos := [{ id := 1, text := "İlk todo", done := false,
                createdAt := boot, updatedAt := boot }],
    nextId := 2 }

/-- server.js `parseBool` (lines 64-68). -/
def parseBool (v : String) : Option Bool :=
  if v = "true" then some true
  else if v = "false" then some false
  else none

/-- The sort key selected on server.js line 72: `updatedAt`, `createdAt`,
or the `id` fallback for any other value. -/
inductive SortKey where
  | id
  | createdAt
  | updatedAt
deriving DecidableEq, Repr

/-- server.js line 72: key selection (`sort === "updatedAt" ? ... : "id"`). -/
def sortKeyOf (sort : String) : SortKey :=
  if sort = "updatedAt" then SortKey.updatedAt
  else if sort = "createdAt" then SortKey.createdAt
  else SortKey.id

/-- `a[key] > b[key]` for the selected key: numeric for `id`, string
comparison for the timestamp keys. -/
def keyGtB (k : SortKey) (a b : Todo) : Bool :=
  match k with
  | SortKey.id => decide (b.id < a.id)
  | SortKey.createdAt => jsStrLt b.createdAt a.createdAt
  | SortKey.updatedAt => jsStrLt b.updatedAt a.updatedAt

/-- The comparator of server.js line 73:
`(a, b) => (a[key] > b[key] ? 1 * dir : a[key] < b[key] ? -1 * dir : 0)`. -/
def jsCompare (k : SortKey) (dir : Int) (a b : Todo) : Int :=
  if keyGtB k a b then dir
  else if keyGtB k b a then -dir
  else 0

/-- Stable insertion into a sorted list: `x` goes before the first element
`y` with `le x y`. -/
def insertBy {α : Type} (le : α → α → Bool) (x : α) : List α → List α
  | [] => [x]
  | y :: ys => if le x y then x :: y :: ys else y :: insertBy le x ys

/-- Stable sort (insertion sort).  For a consistent comparator this produces
the unique stable order, which is what ECMAScript `Array.prototype.sort`
guarantees. -/
def stableSortBy {α : Type} (le : α → α → Bool) : List α → List α
  | [] => []
  | x :: xs => insertBy le x (stableSortBy le xs)

/-- server.js `sortTodos` (lines 70-74): copy the array and stable-sort it
with the comparator; `dir` is -1 exactly when `order === "desc"`. -/
def sortTodos (items : List Todo) (sort order : String) : List Todo :=
  let dir : Int := if order = "desc" then -1 else 1
  let k := sortKeyOf sort
  stableSortBy (fun a b => decide (jsCompare k dir a b ≤ 0)) items

/-- JavaScript `Array.prototype.slice(start, end)`: negative indices count
from the end of the array, and the bounds are clamped to `[0, length]`. -/
def jsSlice {α : Type} (l : List α) (start stop : Int) : List α :=
  let len : Int := l.length
  let s := if start < 0 then max (len + start) 0 else min start len
  let e := if stop < 0 then max (len + stop) 0 else min stop len
  (l.drop s.toNat).take (e - s).toNat

/-- The zod schema `z.string().trim().min(1).max(200)` (lines 77-79):
trims, then requires length in `[1, 200]`; the parsed value is the trimmed
string. -/
def validText (s : String) : Option String :=
  let t := jsTrim s
  if 1 ≤ t.data.length ∧ t.data.length ≤ 200 then some t else none

/-- A JSON body for create: `text` present (as a string) or not.  `none`
models an absent or non-string field, both of which fail the schema. -/
structure CreateBody where
  text : Option String
deriving DecidableEq, Repr

/-- A JSON body for PUT: each field present or not. -/
structure PutBody where
  text : Option String
  done : Option Bool
deriving DecidableEq, Repr

/-- A JSON body for PATCH. -/
structure PatchBody where
  text : Option String
  done : Option Bool
deriving DecidableEq, Repr

/-- A JSON body for bulk create: the `items` field, when present. -/
structure BulkBody where
  items : Option (List CreateBody)
deriving DecidableEq, Repr

/-- `TodoCreateSchema.safeParse` (lines 77-79). -/
def parseCreate (b : CreateBody) : Option String :=
  b.text.bind validText

/-- `TodoPutSchema.safeParse` (lines 81-84): both fields required. -/
def parsePut (b : PutBody) : Option (String × Bool) :=
  match b.text, b.done with
  | some t, some d => (validText t).map (fun tt => (tt, d))
  | _, _ => none

/-- `TodoPatchSchema.safeParse` (lines 86-91): both fields optional, a
present `text` must validate, and at least one field must be present. -/
def parsePatch (b : PatchBody) : Option (Option String × Option Bool) :=
  match b.text with
  | some t => (validText t).map (fun tt => (some tt, b.done))
  | none =>
    match b.done with
    | some d => some (none, some d)
    | none => none

/-- Elementwise validation of the bulk items: all must parse, in order. -/
def parseAll : List CreateBody → Option (List String)
  | [] => some []
  | b :: bs =>
    match parseCreate b with
    | none => none
    | some t => (parseAll bs).map (fun ts => t :: ts)

/-- `BulkCreateSchema.safeParse` (lines 93-95): `items` is an array of
create objects, length 1..100, every element valid. -/
def parseBulk (b : BulkBody) : Option (List String) :=
  match b.items with
  | none => none
  | some its =>
    if 1 ≤ its.length ∧ its.length ≤ 100 then parseAll its
    else none

/-- The query string of `GET /v1/todos`.  String parameters are `none` when
absent; `limit`/`offset` are the numeric values of the supplied decimal
literals (`none` = absent, so the `||`-default applies). -/
structure ListQuery where
  q : Option String
  done : Option String
  sort : Option String
  order : Option String
  limit : Option Int
  offset : Option Int
deriving DecidableEq, Repr

/-- The `meta`+`items` payload of a list response (lines 163-172). -/
structure Page where
  items : List Todo
  total : Nat
  limit : Int
  offset : Int
  hasNext : Bool
  hasPrev : Bool
deriving DecidableEq, Repr

/-- The observable response of a handler: the success payloads, 204, and
the two error envelopes the todo routes produce (`VALIDATION_ERROR` 400 and
`NOT_FOUND` 404). -/
inductive Response where
  | okTodo (t : Todo)
  | okList (p : Page)
  | okItems (ts : List Todo)
  | okStats (total doneCount pending : Nat)
  | noContent
  | notFound
  | validationError
deriving DecidableEq, Repr

/-- Line 144: `(req.query.q || "").toString().trim().toLowerCase()`. -/
def qNormalize (qopt : Option String) : String :=
  jsToLower (jsTrim (qopt.getD ""))

/-- Line 145: filter by the normalized `q` when it is non-empty (truthy). -/
def filterByQ (todos : List Todo) (q : String) : List Todo :=
  if q = "" then todos
  else todos.filter (fun t => jsIncludes (jsToLower t.text) q)

/-- Lines 154-172 of the list handler: sort the filtered items, compute the
clamped `limit`/`offset`, slice the page and build the meta block. -/
def listOk (items : List Todo) (qry : ListQuery) : Response :=
  let sorted := sortTodos items (qry.sort.getD "createdAt") (qry.order.getD "desc")
  let limit : Int := min (qry.limit.getD 20) 100
  let offset : Int := max (qry.offset.getD 0) 0
  Response.okList
    { items := jsSlice sorted offset (offset + limit)
      total := sorted.length
      limit := limit
      offset := offset
      hasNext := decide (offset + limit < (sorted.length : Int))
      hasPrev := decide (0 < offset) }

/-- Lines 142-152 of the list handler: the q-filter followed by the
done-filter; `none` is the early `VALIDATION_ERROR` return for a bad `done`
literal. -/
def filteredItems (st : StoreState) (qry : ListQuery) : Option (List Todo) :=
  let items1 := filterByQ st.todos (qNormalize qry.q)
  match qry.done with
  | none => some items1
  | some raw =>
    match parseBool raw with
    | none => none
    | some b => some (items1.filter (fun t => t.done == b))

/-- `GET /v1/todos` (lines 141-173): q-filter, done-filter (may 400), then
sort/paginate.  Reads never reassign `todos`, so the state is returned
unchanged. -/
def listTodos (st : StoreState) (qry : ListQuery) : StoreState × Response :=
  match filteredItems st qry with
  | none => (st, Response.validationError)
  | some items => (st, listOk items qry)

/-- `GET /v1/todos/stats` (lines 175-179). -/
def statsTodos (st : StoreState) : StoreState × Response :=
  let total := st.todos.length
  let doneCount := (st.todos.filter (fun t => t.done)).length
  (st, Response.okStats total doneCount (total - doneCount))

/-- `Number(req.params.id) === t.id`: `none` models `NaN`, which compares
unequal to everything. -/
def idMatches (p : Option Int) (tid : Int) : Bool :=
  match p with
  | none => false
  | some n => n == tid

/-- The lookup predicate used by `find`/`findIndex`/`filter` on lines 183,
215, 234 and 251. -/
def idPred (p : Option Int) : Todo → Bool := fun t => idMatches p t.id

/-- `GET /v1/todos/:id` (lines 181-186). -/
def getTodo (st : StoreState) (p : Option Int) : StoreState × Response :=
  match st.todos.find? (idPred p) with
  | none => (st, Response.notFound)
  | some t => (st, Response.okTodo t)

/-- `POST /v1/todos` (lines 188-197): validate, then append a fresh todo
with `id = nextId++`, `done = false`, both timestamps `now`. -/
def createTodo (st : StoreState) (body : CreateBody) (now : String) :
    StoreState × Response :=
  match parseCreate body with
  | none => (st, Response.validationError)
  | some text =>
    let todo : Todo := { id := st.nextId, text := text, done := false,
                         createdAt := now, updatedAt := now }
    ({ todos := st.todos ++ [todo], nextId := st.nextId + 1 },
     Response.okTodo todo)

/-- The todos built by the bulk `map` (lines 204-208): consecutive ids from
`startId`, all with the same `now`. -/
def mkBulkTodos (texts : List String) (startId : Int) (now : String) : List Todo :=
  match texts with
  | [] => []
  | t :: rest =>
    { id := startId, text := t, done := false, createdAt := now, updatedAt := now }
      :: mkBulkTodos rest (startId + 1) now

/-- `POST /v1/todos/bulk` (lines 199-211): the whole batch is validated by
`safeParse` before the `map` creates anything. -/
def bulkCreate (st : StoreState) (body : BulkBody) (now : String) :
    StoreState × Response :=
  match parseBulk body with
  | none => (st, Response.validationError)
  | some texts =>
    let created := mkBulkTodos texts st.nextId now
    ({ todos := st.todos ++ created,
       nextId := st.nextId + (texts.length : Int) },
     Response.okItems created)

/-- Replace the first element satisfying `pred` by its image under `f`,
returning the new list and the updated element (the JS
`todos[idx] = {...}` write followed by reading `todos[idx]` back). -/
def updateFirst {α : Type} (pred : α → Bool) (f : α → α) : List α → Option (List α × α)
  | [] => none
  | x :: xs =>
    if pred x then some (f x :: xs, f x)
    else
      match updateFirst pred f xs with
      | none => none
      | some (rest, u) => some (x :: rest, u)

/-- The object spread of lines 222-227: keep `id` and `createdAt`, replace
`text` and `done`, stamp `updatedAt`. -/
def replaceFn (text : String) (doneVal : Bool) (now : String) (t : Todo) : Todo :=
  { t with text := text, done := doneVal, updatedAt := now }

/-- The in-place patch of lines 241-243: overwrite only supplied fields,
always stamp `updatedAt`. -/
def patchFn (topt : Option String) (dopt : Option Bool) (now : String) (t : Todo) : Todo :=
  { t with text := topt.getD t.text, done := dopt.getD t.done, updatedAt := now }

/-- `PUT /v1/todos/:id` (lines 213-230): the id lookup happens first
(404 before body validation), then the body is validated, then the record
is replaced. -/
def putTodo (st : StoreState) (p : Option Int) (body : PutBody) (now : String) :
    StoreState × Response :=
  match st.todos.find? (idPred p) with
  | none => (st, Response.notFound)
  | some _ =>
    match parsePut body with
    | none => (st, Response.validationError)
    | some (text, doneVal) =>
      match updateFirst (idPred p) (replaceFn text doneVal now) st.todos with
      | none => (st, Response.notFound)
      | some (rest, u) => ({ st with todos := rest }, Response.okTodo u)

/-- `PATCH /v1/todos/:id` (lines 232-246): id lookup first, then body
validation, then the in-place field updates. -/
def patchTodo (st : StoreState) (p : Option Int) (body : PatchBody) (now : String) :
    StoreState × Response :=
  match st.todos.find? (idPred p) with
  | none => (st, Response.notFound)
  | some _ =>
    match parsePatch body with
    | none => (st, Response.validationError)
    | some (topt, dopt) =>
      match updateFirst (idPred p) (patchFn topt dopt now) st.todos with
      | none => (st, Response.notFound)
      | some (rest, u) => ({ st with todos := rest }, Response.okTodo u)

/-- `DELETE /v1/todos/:id` (lines 248-254): reassign `todos` to the filtered
array; 404 when nothing was removed. -/
def deleteTodo (st : StoreState) (p : Option Int) : StoreState × Response :=
  let rest := st.todos.filter (fun t => !(idPred p t))
  if rest.length = st.todos.length then
    ({ st with todos := rest }, Response.notFound)
  else
    ({ st with todos := rest }, Response.noContent)

/-- One request against the todo routes, with its wall-clock timestamp
where the handler takes one. -/
inductive Op where
  | create (body : CreateBody) (now : String)
  | bulk (body : BulkBody) (now : String)
  | put (p : Option Int) (body : PutBody) (now : String)
  | patch (p : Option Int) (body : PatchBody) (now : String)
  | del (p : Option Int)
  | getOne (p : Option Int)
  | list (qry : ListQuery)
  | stats
deriving Repr

/-- Dispatch one request to its handler. -/
def step (st : StoreState) : Op → StoreState × Response
  | Op.create body now => createTodo st body now
  | Op.bulk body now => bulkCreate st body now
  | Op.put p body now => putTodo st p body now
  | Op.patch p body now => patchTodo st p body now
  | Op.del p => deleteTodo st p
  | Op.getOne p => getTodo st p
  | Op.list qry => listTodos st qry
  | Op.stats => statsTodos st

/-- Run a sequence of requests, threading the store state. -/
def runOps (st : StoreState) : List Op → StoreState
  | [] => st
  | op :: ops => runOps (step st op).1 ops

/-- The ids assigned by one request, in assignment order: creations append,
so these are the ids of the todos beyond the old length. -/
def newIds (st : StoreState) (op : Op) : List Int :=
  (((step st op).1.todos.drop st.todos.length).map Todo.id)

/-- All ids assigned along a request sequence, in assignment order. -/
def traceIds (st : StoreState) : List Op → List Int
  | [] => []
  | op :: ops => newIds st op ++ traceIds (step st op).1 ops

/-- The store invariant: every stored id is below the id counter. -/
def goodState (st : StoreState) : Prop :=
  ∀ t ∈ st.todos, t.id < st.nextId

/-! ## Basic lemmas about the embedded operations -/

theorem insertBy_perm {α : Type} (le : α → α → Bool) (x : α) (l : List α) :
    (insertBy le x l).Perm (x :: l) := by
  induction l with
  | nil => simp [insertBy]
  | cons y ys ih =>
    by_cases h : le x y
    · simp [insertBy, h]
    · simp only [insertBy, h, if_neg]
      exact (ih.cons y).trans (List.Perm.swap x y ys)

theorem stableSortBy_perm {α : Type} (le : α → α → Bool) (l : List α) :
    (stableSortBy le l).Perm l := by
  induction l with
  | nil => simp [stableSortBy]
  | cons x xs ih =>
    exact (insertBy_perm le x (stableSortBy le xs)).trans (ih.cons x)

theorem sortTodos_perm (items : List Todo) (sort order : String) :
    (sortTodos items sort order).Perm items :=
  stableSortBy_perm _ items

theorem sortTodos_length (items : List Todo) (sort order : String) :
    (sortTodos items sort order).length = items.length :=
  (sortTodos_perm items sort order).length_eq

theorem mem_of_mem_jsSlice {α : Type} {t : α} {l : List α} {a b : Int}
    (h : t ∈ jsSlice l a b) : t ∈ l := by
  unfold jsSlice at h
  exact List.mem_of_mem_drop (List.mem_of_mem_take h)

theorem jsSlice_nonneg {α : Type} (l : List α) (off lim : Int)
    (hoff : 0 ≤ off) (hlim : 0 ≤ lim) :
    jsSlice l off (off + lim) = (l.drop off.toNat).take lim.toNat := by
  simp only [jsSlice]
  rw [if_neg (by omega), if_neg (by omega)]
  have hdrop : l.drop (min off (l.length : Int)).toNat = l.drop off.toNat := by
    rcases le_or_lt (l.length : Int) off with h | h
    · rw [min_eq_right h]
      rw [List.drop_eq_nil_of_le (by omega), List.drop_eq_nil_of_le (by omega)]
    · rw [min_eq_left (le_of_lt h)]
  rw [hdrop, List.take_eq_take]
  have hdlen : (l.drop off.toNat).length = l.length - off.toNat :=
    List.length_drop _ _
  rw [hdlen]
  omega

theorem updateFirst_of_find? {α : Type} (pred : α → Bool) (f : α → α)
    (l : List α) (x : α) (h : l.find? pred = some x) :
    ∃ l₁ l₂, l = l₁ ++ x :: l₂ ∧ (∀ y ∈ l₁, pred y = false) ∧ pred x = true ∧
      updateFirst pred f l = some (l₁ ++ f x :: l₂, f x) := by
  induction l with
  | nil => simp [List.find?] at h
  | cons a as ih =>
    by_cases hp : pred a = true
    · rw [List.find?_cons_of_pos _ hp] at h
      obtain rfl : a = x := by injection h
      exact ⟨[], as, rfl, by simp, hp, by simp [updateFirst, hp]⟩
    · rw [List.find?_cons_of_neg _ hp] at h
      obtain ⟨l₁, l₂, hl, hall, hx, hu⟩ := ih h
      refine ⟨a :: l₁, l₂, by simp [hl], ?_, hx, ?_⟩
      · intro y hy
        rcases List.mem_cons.mp hy with rfl | hy
        · exact Bool.not_eq_true _ ▸ (by simpa using hp)
        · exact hall y hy
      · simp [updateFirst, hp, hu]

theorem parseAll_eq_none {its : List CreateBody} {cb : CreateBody}
    (hmem : cb ∈ its) (hbad : parseCreate cb = none) :
    parseAll its = none := by
  induction its with
  | nil => simp at hmem
  | cons b bs ih =>
    rcases List.mem_cons.mp hmem with rfl | hmem
    · simp [parseAll, hbad]
    · unfold parseAll
      cases hpc : parseCreate b with
      | none => rfl
      | some t => rw [ih hmem]; rfl

theorem parseAll_forall₂ {its : List CreateBody} {texts : List String}
    (h : parseAll its = some texts) :
    List.Forall₂ (fun cb t => parseCreate cb = some t) its texts := by
  induction its generalizing texts with
  | nil =>
    simp only [parseAll] at h
    obtain rfl : ([] : List String) = texts := by injection h
    exact List.Forall₂.nil
  | cons b bs ih =>
    unfold parseAll at h
    cases hpc : parseCreate b with
    | none => rw [hpc] at h; exact absurd h (by simp)
    | some t =>
      rw [hpc] at h
      cases hall : parseAll bs with
      | none => rw [hall] at h; exact absurd h (by simp)
      | some ts =>
        rw [hall] at h
        obtain rfl : t :: ts = texts := by injection h
        exact List.Forall₂.cons hpc (ih hall)

theorem mkBulkTodos_map_text (texts : List String) (startId : Int) (now : String) :
    (mkBulkTodos texts startId now).map Todo.text = texts := by
  induction texts generalizing startId with
  | nil => rfl
  | cons t rest ih => simp [mkBulkTodos, ih]

theorem mkBulkTodos_fields {texts : List String} {startId : Int} {now : String}
    {t : Todo} (h : t ∈ mkBulkTodos texts startId now) :
    t.createdAt = now ∧ t.updatedAt = now ∧ t.done = false := by
  induction texts generalizing startId with
  | nil => simp [mkBulkTodos] at h
  | cons s rest ih =>
    rcases List.mem_cons.mp h with rfl | h
    · exact ⟨rfl, rfl, rfl⟩
    · exact ih h

theorem mkBulkTodos_id_bounds {texts : List String} {startId : Int} {now : String}
    {i : Int} (h : i ∈ (mkBulkTodos texts startId now).map Todo.id) :
    startId ≤ i ∧ i < startId + texts.length := by
  induction texts generalizing startId with
  | nil => simp [mkBulkTodos] at h
  | cons s rest ih =>
    simp only [mkBulkTodos, List.map_cons, List.mem_cons] at h
    rcases h with rfl | h
    · simp only [List.length_cons]
      constructor
      · exact le_refl _
      · have : (0 : Int) ≤ rest.length := by positivity
        omega
    · have := ih h
      simp only [List.length_cons]
      omega

theorem mkBulkTodos_id_pairwise (texts : List String) (startId : Int) (now : String) :
    List.Pairwise (fun a b => a < b) ((mkBulkTodos texts startId now).map Todo.id) := by
  induction texts generalizing startId with
  | nil => simp [mkBulkTodos]
  | cons s rest ih =>
    simp only [mkBulkTodos, List.map_cons]
    refine List.Pairwise.cons ?_ (ih (startId + 1))
    intro i hi
    have := mkBulkTodos_id_bounds hi
    omega

theorem mkBulkTodos_length (texts : List String) (startId : Int) (now : String) :
    (mkBulkTodos texts startId now).length = texts.length := by
  induction texts generalizing startId with
  | nil => rfl
  | cons t rest ih => simp [mkBulkTodos, ih]

/-- The effect summary shared by every handler branch that leaves the
state unchanged. -/
theorem effects_of_fst_eq (st : StoreState) (op : Op) (h : goodState st)
    (hst : (step st op).1 = st) :
    goodState (step st op).1 ∧
    st.nextId ≤ (step st op).1.nextId ∧
    List.Pairwise (fun a b => a < b) (newIds st op) ∧
    ∀ i ∈ newIds st op, st.nextId ≤ i ∧ i < (step st op).1.nextId := by
  refine ⟨by rw [hst]; exact h, by rw [hst], ?_, ?_⟩
  · simp [newIds, hst, List.drop_length]
  · intro i hi
    simp [newIds, hst, List.drop_length] at hi

/-- The effect summary shared by every handler branch that keeps the id
counter and does not lengthen the collection (replace, patch, delete). -/
theorem effects_of_no_growth (st : StoreState) (op : Op)
    (hg : goodState (step st op).1)
    (hn : (step st op).1.nextId = st.nextId)
    (hlen : (step st op).1.todos.length ≤ st.todos.length) :
    goodState (step st op).1 ∧
    st.nextId ≤ (step st op).1.nextId ∧
    List.Pairwise (fun a b => a < b) (newIds st op) ∧
    ∀ i ∈ newIds st op, st.nextId ≤ i ∧ i < (step st op).1.nextId := by
  refine ⟨hg, by rw [hn], ?_, ?_⟩
  · simp [newIds, List.drop_eq_nil_of_le hlen]
  · intro i hi
    simp [newIds, List.drop_eq_nil_of_le hlen] at hi

/-- Per-request effect summary: every handler preserves the id invariant,
never decreases the id counter, and the ids it assigns are pairwise
increasing and lie in `[nextId, nextId')`. -/
theorem step_effects (st : StoreState) (op : Op) (h : goodState st) :
    goodState (step st op).1 ∧
    st.nextId ≤ (step st op).1.nextId ∧
    List.Pairwise (fun a b => a < b) (newIds st op) ∧
    ∀ i ∈ newIds st op, st.nextId ≤ i ∧ i < (step st op).1.nextId := by
  cases op with
  | create body now =>
    cases hp : parseCreate body with
    | none =>
      exact effects_of_fst_eq st _ h (by simp [step, createTodo, hp])
    | some text =>
      have h1 : (step st (Op.create body now)).1.todos =
          st.todos ++ [{ id := st.nextId, text := text, done := false,
                         createdAt := now, updatedAt := now }] := by
        simp [step, createTodo, hp]
      have h2 : (step st (Op.create body now)).1.nextId = st.nextId + 1 := by
        simp [step, createTodo, hp]
      refine ⟨?_, ?_, ?_, ?_⟩
      · intro t ht
        rw [h1] at ht
        rw [h2]
        rcases List.mem_append.mp ht with ht | ht
        · have := h t ht
          omega
        · rw [List.mem_singleton.mp ht]
          exact lt_add_one _
      · rw [h2]; omega
      · simp [newIds, h1, List.drop_left]
      · intro i hi
        simp only [newIds, h1, List.drop_left, List.map_cons, List.map_nil,
          List.mem_singleton] at hi
        rw [hi, h2]
        exact ⟨le_refl _, lt_add_one _⟩
  | bulk body now =>
    cases hp : parseBulk body with
    | none =>
      exact effects_of_fst_eq st _ h (by simp [step, bulkCreate, hp])
    | some texts =>
      have h1 : (step st (Op.bulk body now)).1.todos =
          st.todos ++ mkBulkTodos texts st.nextId now := by
        simp [step, bulkCreate, hp]
      have h2 : (step st (Op.bulk body now)).1.nextId =
          st.nextId + (texts.length : Int) := by
        simp [step, bulkCreate, hp]
      have hnn : (0 : Int) ≤ (texts.length : Int) := by positivity
      refine ⟨?_, ?_, ?_, ?_⟩
      · intro t ht
        rw [h1] at ht
        rw [h2]
        rcases List.mem_append.mp ht with ht | ht
        · have := h t ht
          omega
        · have hb := mkBulkTodos_id_bounds (List.mem_map_of_mem Todo.id ht)
          omega
      · rw [h2]; omega
      · simpa [newIds, h1, List.drop_left] using
          mkBulkTodos_id_pairwise texts st.nextId now
      · intro i hi
        simp only [newIds, h1, List.drop_left] at hi
        have hb := mkBulkTodos_id_bounds hi
        rw [h2]
        omega
  | put p body now =>
    cases hf : st.todos.find? (idPred p) with
    | none =>
      exact effects_of_fst_eq st _ h (by simp [step, putTodo, hf])
    | some t =>
      cases hp : parsePut body with
      | none =>
        exact effects_of_fst_eq st _ h (by simp [step, putTodo, hf, hp])
      | some pr =>
        obtain ⟨text, dval⟩ := pr
        obtain ⟨l₁, l₂, hl, hall, hx, hu⟩ :=
          updateFirst_of_find? (idPred p) (replaceFn text dval now) st.todos t hf
        have h1 : (step st (Op.put p body now)).1.todos =
            l₁ ++ replaceFn text dval now t :: l₂ := by
          simp [step, putTodo, hf, hp, hu]
        have h2 : (step st (Op.put p body now)).1.nextId = st.nextId := by
          simp [step, putTodo, hf, hp, hu]
        refine effects_of_no_growth st _ ?_ h2 ?_
        · intro u hu'
          rw [h1] at hu'
          rw [h2]
          rcases List.mem_append.mp hu' with hu' | hu'
          · exact h u (by rw [hl]; exact List.mem_append.mpr (Or.inl hu'))
          · rcases List.mem_cons.mp hu' with rfl | hu'
            · have htm : t ∈ st.todos := by
                rw [hl]; exact List.mem_append.mpr (Or.inr (List.mem_cons_self _ _))
              exact h t htm
            · exact h u (by
                rw [hl]
                exact List.mem_append.mpr (Or.inr (List.mem_cons_of_mem _ hu')))
        · rw [h1, hl]
          simp
  | patch p body now =>
    cases hf : st.todos.find? (idPred p) with
    | none =>
      exact effects_of_fst_eq st _ h (by simp [step, patchTodo, hf])
    | some t =>
      cases hp : parsePatch body with
      | none =>
        exact effects_of_fst_eq st _ h (by simp [step, patchTodo, hf, hp])
      | some pr =>
        obtain ⟨topt, dopt⟩ := pr
        obtain ⟨l₁, l₂, hl, hall, hx, hu⟩ :=
          updateFirst_of_find? (idPred p) (patchFn topt dopt now) st.todos t hf
        have h1 : (step st (Op.patch p body now)).1.todos =
            l₁ ++ patchFn topt dopt now t :: l₂ := by
          simp [step, patchTodo, hf, hp, hu]
        have h2 : (step st (Op.patch p body now)).1.nextId = st.nextId := by
          simp [step, patchTodo, hf, hp, hu]
        refine effects_of_no_growth st _ ?_ h2 ?_
        · intro u hu'
          rw [h1] at hu'
          rw [h2]
          rcases List.mem_append.mp hu' with hu' | hu'
          · exact h u (by rw [hl]; exact List.mem_append.mpr (Or.inl hu'))
          · rcases List.mem_cons.mp hu' with rfl | hu'
            · have htm : t ∈ st.todos := by
                rw [hl]; exact List.mem_append.mpr (Or.inr (List.mem_cons_self _ _))
              exact h t htm
            · exact h u (by
                rw [hl]
                exact List.mem_append.mpr (Or.inr (List.mem_cons_of_mem _ hu')))
        · rw [h1, hl]
          simp
  | del p =>
    have h1 : (step st (Op.del p)).1.todos =
        st.todos.filter (fun t => !(idPred p t)) := by
      by_cases hc :
          (st.todos.filter (fun t => !(idPred p t))).length = st.todos.length <;>
        simp [step, deleteTodo, hc]
    have h2 : (step st (Op.del p)).1.nextId = st.nextId := by
      by_cases hc :
          (st.todos.filter (fun t => !(idPred p t))).length = st.todos.length <;>
        simp [step, deleteTodo, hc]
    refine effects_of_no_growth st _ ?_ h2 ?_
    · intro t ht
      rw [h1] at ht
      rw [h2]
      exact h t (List.mem_filter.mp ht).1
    · rw [h1]
      exact List.length_filter_le _ _
  | getOne p =>
    refine effects_of_fst_eq st _ h ?_
    cases hf : st.todos.find? (idPred p) <;> simp [step, getTodo, hf]
  | list qry =>
    refine effects_of_fst_eq st _ h ?_
    cases hf : filteredItems st qry <;> simp [step, listTodos, hf]
  | stats =>
    exact effects_of_fst_eq st _ h rfl

/-- Trace-level id allocation: along any request sequence from a state
satisfying the id invariant, assigned ids are pairwise increasing and all
at least `nextId`. -/
theorem traceIds_spec (ops : List Op) (st : StoreState) (h : goodState st) :
    List.Pairwise (fun a b => a < b) (traceIds st ops) ∧
    ∀ i ∈ traceIds st ops, st.nextId ≤ i := by
  induction ops generalizing st with
  | nil => simp [traceIds]
  | cons op ops ih =>
    obtain ⟨hg, hle, hpw, hbnd⟩ := step_effects st op h
    obtain ⟨ihpw, ihbnd⟩ := ih (step st op).1 hg
    constructor
    · rw [traceIds, List.pairwise_append]
      refine ⟨hpw, ihpw, ?_⟩
      intro a ha b hb
      have h1 := (hbnd a ha).2
      have h2 := ihbnd b hb
      omega
    · intro i hi
      rw [traceIds, List.mem_append] at hi
      rcases hi with hi | hi
      · exact (hbnd i hi).1
      · have h1 := ihbnd i hi
        omega

/-! ## Concrete fixtures used by counterexamples and witnesses -/

/-- A pending todo with the given id and timestamp. -/
def exTodo (i : Int) (ts : String) : Todo :=
  { id := i, text := "t", done := false, createdAt := ts, updatedAt := ts }

/-- A todo with the given id and done flag. -/
def exTodoD (i : Int) (d : Bool) : Todo :=
  { id := i, text := "t", done := d, createdAt := "A", updatedAt := "A" }

def exStoreAB : StoreState :=
  { todos := [exTodo 1 "A", exTodo 2 "B"], nextId := 3 }

def exStore3 : StoreState :=
  { todos := [exTodo 1 "A", exTodo 2 "B", exTodo 3 "C"], nextId := 4 }

def exStore5 : StoreState :=
  { todos := [exTodo 1 "A", exTodo 2 "B", exTodo 3 "C", exTodo 4 "D", exTodo 5 "E"],
    nextId := 6 }

def exStoreD : StoreState :=
  { todos := [exTodoD 1 true, exTodoD 2 false, exTodoD 3 true], nextId := 4 }

def exQryNoOrder : ListQuery :=
  { q := none, done := none, sort := some "id", order := none,
    limit := none, offset := none }

def exQryNegLimit : ListQuery :=
  { q := none, done := none, sort := some "id", order := some "asc",
    limit := some (-1), offset := none }

def exQry24 : ListQuery :=
  { q := none, done := none, sort := some "id", order := some "asc",
    limit := some 2, offset := some 4 }

def exQryDoneTrue : ListQuery :=
  { q := none, done := some "true", sort := some "id", order := some "asc",
    limit := none, offset := none }

def exQryDoneMaybe : ListQuery :=
  { q := none, done := some "maybe", sort := some "id", order := some "asc",
    limit := none, offset := none }

def exPage24 : Page :=
  { items := [exTodo 5 "E"], total := 5, limit := 2, offset := 4,
    hasNext := false, hasPrev := true }

def exPageD : Page :=
  { items := [exTodoD 1 true, exTodoD 3 true], total := 2, limit := 20,
    offset := 0, hasNext := false, hasPrev := false }

def exBadPut : PutBody := { text := some "x", done := none }

def exBadPatch : PatchBody := { text := none, done := none }

def exGoodPut : PutBody := { text := some "x", done := some false }

def exGoodPatch : PatchBody := { text := some "x", done := none }

def exBulkBody : BulkBody := { items := some [⟨some "a"⟩, ⟨some "b"⟩] }

def exOps : List Op :=
  [Op.create ⟨some "x"⟩ "T1",
   Op.bulk exBulkBody "T2",
   Op.del (some 2),
   Op.create ⟨some "y"⟩ "T3"]

/-! ## Claims -/

/-- Claim C1 (amended): when the `order` query parameter is absent the
handler defaults it to `"desc"` (line 155), so the comparison order is
descending; a present but unrecognized `order` value is treated as `asc`
(only `"desc"` flips `dir`); `desc` reverses the comparison sign. -/
theorem C1_order_default_and_fallback (st : StoreState) (qry : ListQuery)
    (items : List Todo) (srt s : String) (hs : s ≠ "desc") :
    listTodos st { qry with order := none } =
      listTodos st { qry with order := some "desc" } ∧
    sortTodos items srt s = sortTodos items srt "asc" ∧
    ∀ (k : SortKey) (a b : Todo), jsCompare k (-1) a b = -(jsCompare k 1 a b) := by
  refine ⟨?_, ?_, ?_⟩
  · cases hq : qry.done with
    | none => simp [listTodos, filteredItems, listOk, hq]
    | some raw =>
      cases hb : parseBool raw <;>
        simp [listTodos, filteredItems, listOk, hq, hb]
  · simp only [sortTodos]
    rw [if_neg hs, if_neg (by decide : ¬ ("asc" = "desc"))]
  · intro k a b
    cases h1 : keyGtB k a b <;> cases h2 : keyGtB k b a <;>
      simp [jsCompare, h1, h2]

/-- Claim C1, counterexample to the claim as stated: with two todos and a
request whose `order` parameter is absent (`sort=id`), the returned items
are in descending id order, and the absent-order response differs from the
`order=asc` response. -/
theorem C1_counterexample :
    (listTodos exStoreAB exQryNoOrder).2 =
      Response.okList
        { items := [exTodo 2 "B", exTodo 1 "A"], total := 2, limit := 20,
          offset := 0, hasNext := false, hasPrev := false } ∧
    listTodos exStoreAB exQryNoOrder ≠
      listTodos exStoreAB { exQryNoOrder with order := some "asc" } := by
  constructor
  · decide
  · decide

/-- Claim C1, witness for the amended theorem at concrete inputs. -/
theorem C1_witness :
    ("weird" ≠ "desc") ∧
    listTodos exStoreAB { exQryNoOrder with order := none } =
      listTodos exStoreAB { exQryNoOrder with order := some "desc" } ∧
    sortTodos exStoreAB.todos "id" "weird" = sortTodos exStoreAB.todos "id" "asc" ∧
    jsCompare SortKey.id (-1) (exTodo 1 "A") (exTodo 2 "B") =
      -(jsCompare SortKey.id 1 (exTodo 1 "A") (exTodo 2 "B")) :=
  ⟨by decide,
   (C1_order_default_and_fallback exStoreAB exQryNoOrder exStoreAB.todos "id" "weird"
      (by decide)).1,
   (C1_order_default_and_fallback exStoreAB exQryNoOrder exStoreAB.todos "id" "weird"
      (by decide)).2.1,
   (C1_order_default_and_fallback exStoreAB exQryNoOrder exStoreAB.todos "id" "weird"
      (by decide)).2.2 SortKey.id (exTodo 1 "A") (exTodo 2 "B")⟩

/-- Claim C2 (amended): `limit` is capped above at 100 (default 20 when
absent) but a negative `limit` is NOT clamped to 0; `offset` is clamped to
`[0, +inf)` (negative becomes 0, default 0); whenever the effective limit
is nonnegative the returned page equals the filtered and sorted collection
sliced `[offset, offset+limit)`, and the meta block reports `total`,
`hasNext` and `hasPrev` as computed on lines 163-172. -/
theorem C2_pagination (st : StoreState) (qry : ListQuery) (items : List Todo)
    (pg : Page) (hf : filteredItems st qry = some items)
    (hl : (listTodos st qry).2 = Response.okList pg) :
    pg.limit = min (qry.limit.getD 20) 100 ∧
    pg.limit ≤ 100 ∧
    pg.offset = max (qry.offset.getD 0) 0 ∧
    0 ≤ pg.offset ∧
    pg.total =
      (sortTodos items (qry.sort.getD "createdAt") (qry.order.getD "desc")).length ∧
    (0 ≤ pg.limit →
      pg.items =
        ((sortTodos items (qry.sort.getD "createdAt") (qry.order.getD "desc")).drop
            pg.offset.toNat).take pg.limit.toNat) ∧
    pg.hasNext = decide (pg.offset + pg.limit < (pg.total : Int)) ∧
    pg.hasPrev = decide (0 < pg.offset) := by
  have hlt : (listTodos st qry).2 = listOk items qry := by
    simp [listTodos, hf]
  rw [hlt] at hl
  simp only [listOk] at hl
  rw [Response.okList.injEq] at hl
  subst hl
  refine ⟨rfl, min_le_right _ _, rfl, le_max_right _ _, rfl, ?_, rfl, rfl⟩
  intro hnn
  exact jsSlice_nonneg _ _ _ (le_max_right _ _) hnn

/-- Claim C2, counterexample to the claim as stated: with three todos and
`limit=-1`, the effective limit is `-1`, which lies outside `[0, 100]`,
and the page holds 2 items although the slice `[0, 0 + (-1))` is empty
(JS `slice` reads a negative end index from the end of the array). -/
theorem C2_counterexample :
    (listTodos exStore3 exQryNegLimit).2 =
      Response.okList
        { items := [exTodo 1 "A", exTodo 2 "B"], total := 3, limit := -1,
          offset := 0, hasNext := true, hasPrev := false } ∧
    ¬ (0 : Int) ≤ -1 := by
  constructor
  · decide
  · decide

/-- Claim C2, witness: the spec's own example (5 todos, `limit=2`,
`offset=4`) instantiating the amended pagination theorem. -/
theorem C2_witness :
    filteredItems exStore5 exQry24 = some exStore5.todos ∧
    (listTodos exStore5 exQry24).2 = Response.okList exPage24 ∧
    exPage24.limit = min (exQry24.limit.getD 20) 100 ∧
    exPage24.offset = max (exQry24.offset.getD 0) 0 ∧
    exPage24.items =
      ((sortTodos exStore5.todos "id" "asc").drop exPage24.offset.toNat).take
        exPage24.limit.toNat := by
  refine ⟨by decide, by decide, ?_, ?_, ?_⟩
  · exact (C2_pagination exStore5 exQry24 exStore5.todos exPage24
      (by decide) (by decide)).1
  · exact (C2_pagination exStore5 exQry24 exStore5.todos exPage24
      (by decide) (by decide)).2.2.1
  · exact (C2_pagination exStore5 exQry24 exStore5.todos exPage24
      (by decide) (by decide)).2.2.2.2.2.1 (by decide)

/-- Claim C3 (amended): create, bulk create and the list handler validate
before touching the Store, but PUT and PATCH check existence of the id
first: with a nonexistent id the response is `NOT_FOUND` regardless of the
body, and only with an existing id does an invalid body produce
`VALIDATION_ERROR` (with the store unchanged in every error case). -/
theorem C3_validation_order (st : StoreState) (p : Option Int)
    (pb : PutBody) (qb : PatchBody) (cb : CreateBody) (bb : BulkBody)
    (now : String) :
    (parseCreate cb = none → createTodo st cb now = (st, Response.validationError)) ∧
    (parseBulk bb = none → bulkCreate st bb now = (st, Response.validationError)) ∧
    (st.todos.find? (idPred p) = none →
      putTodo st p pb now = (st, Response.notFound) ∧
      patchTodo st p qb now = (st, Response.notFound)) ∧
    (st.todos.find? (idPred p) ≠ none →
      (parsePut pb = none → putTodo st p pb now = (st, Response.validationError)) ∧
      (parsePatch qb = none → patchTodo st p qb now = (st, Response.validationError))) := by
  refine ⟨?_, ?_, ?_, ?_⟩
  · intro hc
    simp [createTodo, hc]
  · intro hb
    simp [bulkCreate, hb]
  · intro hfv
    exact ⟨by simp [putTodo, hfv], by simp [patchTodo, hfv]⟩
  · intro hne
    cases hfv : st.todos.find? (idPred p) with
    | none => exact absurd hfv hne
    | some t =>
      exact ⟨fun hp => by simp [putTodo, hfv, hp],
             fun hp => by simp [patchTodo, hfv, hp]⟩

/-- Claim C3, counterexample to the claim as stated: a PUT body missing
`done` (schema-invalid) sent to the nonexistent id 999 yields `NOT_FOUND`,
not `VALIDATION_ERROR`; likewise an empty PATCH body. -/
theorem C3_counterexample :
    parsePut exBadPut = none ∧
    parsePatch exBadPatch = none ∧
    exStoreAB.todos.find? (idPred (some 999)) = none ∧
    putTodo exStoreAB (some 999) exBadPut "N" = (exStoreAB, Response.notFound) ∧
    patchTodo exStoreAB (some 999) exBadPatch "N" = (exStoreAB, Response.notFound) ∧
    Response.notFound ≠ Response.validationError := by
  refine ⟨by decide, by decide, by decide, by decide, by decide, by decide⟩

/-- Claim C3, witness for the amended theorem: nonexistent id gives 404
for both PUT and PATCH; existing id with invalid body gives 400. -/
theorem C3_witness :
    exStoreAB.todos.find? (idPred (some 999)) = none ∧
    (putTodo exStoreAB (some 999) exBadPut "N" = (exStoreAB, Response.notFound) ∧
     patchTodo exStoreAB (some 999) exBadPatch "N" = (exStoreAB, Response.notFound)) ∧
    parsePut exBadPut = none ∧
    putTodo exStoreAB (some 1) exBadPut "N" = (exStoreAB, Response.validationError) :=
  ⟨by decide,
   (C3_validation_order exStoreAB (some 999) exBadPut exBadPatch ⟨none⟩ ⟨none⟩ "N").2.2.1
     (by decide),
   by decide,
   ((C3_validation_order exStoreAB (some 1) exBadPut exBadPatch ⟨none⟩ ⟨none⟩ "N").2.2.2
     (by decide)).1 (by decide)⟩

/-- Claim C4: bulk create validates the whole batch before creating
anything — if the batch fails to parse (in particular when any single item
is invalid) the store is unchanged and the response is `VALIDATION_ERROR`;
on success every created todo carries the same `now` for `createdAt` and
`updatedAt`, and the created list matches the input order position by
position. -/
theorem C4_bulk_atomic (st : StoreState) (body : BulkBody) (now : String) :
    (parseBulk body = none → bulkCreate st body now = (st, Response.validationError)) ∧
    (∀ its cbad, body.items = some its → cbad ∈ its → parseCreate cbad = none →
      bulkCreate st body now = (st, Response.validationError)) ∧
    (∀ texts, parseBulk body = some texts →
      bulkCreate st body now =
        ({ todos := st.todos ++ mkBulkTodos texts st.nextId now,
           nextId := st.nextId + (texts.length : Int) },
         Response.okItems (mkBulkTodos texts st.nextId now)) ∧
      (mkBulkTodos texts st.nextId now).map Todo.text = texts ∧
      (∀ t ∈ mkBulkTodos texts st.nextId now,
        t.createdAt = now ∧ t.updatedAt = now ∧ t.done = false) ∧
      (∀ its, body.items = some its →
        List.Forall₂ (fun cb t => parseCreate cb = some t) its texts)) := by
  refine ⟨?_, ?_, ?_⟩
  · intro hb
    simp [bulkCreate, hb]
  · intro its cbad hits hmem hbad
    have hnone : parseBulk body = none := by
      by_cases hlen : 1 ≤ its.length ∧ its.length ≤ 100
      · simp [parseBulk, hits, hlen, parseAll_eq_none hmem hbad]
      · simp [parseBulk, hits, hlen]
    simp [bulkCreate, hnone]
  · intro texts hb
    refine ⟨by simp [bulkCreate, hb], mkBulkTodos_map_text _ _ _,
            fun t ht => mkBulkTodos_fields ht, ?_⟩
    intro its hits
    have hall : parseAll its = some texts := by
      by_cases hlen : 1 ≤ its.length ∧ its.length ≤ 100
      · simpa [parseBulk, hits, hlen] using hb
      · simp [parseBulk, hits, hlen] at hb
    exact parseAll_forall₂ hall

/-- Claim C4, witness: a two-item batch creates two todos with consecutive
ids, input order preserved, and a batch state update as described. -/
theorem C4_witness :
    parseBulk exBulkBody = some ["a", "b"] ∧
    bulkCreate exStoreAB exBulkBody "T" =
      ({ todos := exStoreAB.todos ++ mkBulkTodos ["a", "b"] exStoreAB.nextId "T",
         nextId := exStoreAB.nextId + ((["a", "b"] : List String).length : Int) },
       Response.okItems (mkBulkTodos ["a", "b"] exStoreAB.nextId "T")) ∧
    (mkBulkTodos ["a", "b"] exStoreAB.nextId "T").map Todo.text = ["a", "b"] :=
  ⟨by decide,
   ((C4_bulk_atomic exStoreAB exBulkBody "T").2.2 ["a", "b"] (by decide)).1,
   ((C4_bulk_atomic exStoreAB exBulkBody "T").2.2 ["a", "b"] (by decide)).2.1⟩

/-- Claim C5: along any request sequence from a state whose stored ids are
below the counter (as at startup), the assigned ids — concatenated in
assignment order, including within a single bulk call — are pairwise
strictly increasing, and every assigned id exceeds every id already in the
store (so ids are never reused, even after deletion). -/
theorem C5_ids_strictly_increasing (st : StoreState) (ops : List Op)
    (h : goodState st) :
    List.Pairwise (fun a b => a < b) (traceIds st ops) ∧
    ∀ i ∈ traceIds st ops, st.nextId ≤ i ∧ ∀ t ∈ st.todos, t.id < i := by
  obtain ⟨hpw, hbnd⟩ := traceIds_spec ops st h
  refine ⟨hpw, fun i hi => ⟨hbnd i hi, fun t ht => ?_⟩⟩
  have h1 := h t ht
  have h2 := hbnd i hi
  omega

/-- Claim C5, witness: from the startup state, a create, a two-item bulk
create, a delete and another create assign ids 2, 3, 4, 5 in strictly
increasing order (id 2 is not reused after its deletion). -/
theorem C5_witness :
    goodState (initState "B") ∧
    traceIds (initState "B") exOps = [2, 3, 4, 5] ∧
    List.Pairwise (fun a b => a < b) (traceIds (initState "B") exOps) :=
  ⟨by unfold goodState; decide,
   by decide,
   (C5_ids_strictly_increasing (initState "B") exOps
     (by unfold goodState; decide)).1⟩

/-- Claim C6: a successful replace responds with the stored todo whose
`text`, `done` and `updatedAt` are overwritten while `id` and `createdAt`
are preserved, and the collection changes only at the replaced position. -/
theorem C6_replace_frame (st : StoreState) (p : Option Int) (body : PutBody)
    (now : String) (oldT : Todo) (text : String) (dval : Bool)
    (hfind : st.todos.find? (idPred p) = some oldT)
    (hparse : parsePut body = some (text, dval)) :
    (putTodo st p body now).2 = Response.okTodo (replaceFn text dval now oldT) ∧
    (putTodo st p body now).1.nextId = st.nextId ∧
    (replaceFn text dval now oldT).id = oldT.id ∧
    (replaceFn text dval now oldT).createdAt = oldT.createdAt ∧
    (replaceFn text dval now oldT).text = text ∧
    (replaceFn text dval now oldT).done = dval ∧
    (replaceFn text dval now oldT).updatedAt = now ∧
    ∃ l₁ l₂, st.todos = l₁ ++ oldT :: l₂ ∧
      (putTodo st p body now).1.todos = l₁ ++ replaceFn text dval now oldT :: l₂ := by
  obtain ⟨l₁, l₂, hl, hall, hx, hu⟩ :=
    updateFirst_of_find? (idPred p) (replaceFn text dval now) st.todos oldT hfind
  have hstep : putTodo st p body now =
      ({ st with todos := l₁ ++ replaceFn text dval now oldT :: l₂ },
       Response.okTodo (replaceFn text dval now oldT)) := by
    simp [putTodo, hfind, hparse, hu]
  rw [hstep]
  exact ⟨rfl, rfl, rfl, rfl, rfl, rfl, rfl, l₁, l₂, hl, rfl⟩

/-- Claim C6, witness: replacing todo 1 trims the new text, flips `done`,
stamps `updatedAt = "N"` and keeps `createdAt = "A"`. -/
theorem C6_witness :
    exStoreAB.todos.find? (idPred (some 1)) = some (exTodo 1 "A") ∧
    parsePut { text := some " hello ", done := some true } = some ("hello", true) ∧
    (putTodo exStoreAB (some 1)
        { text := some " hello ", done := some true } "N").2 =
      Response.okTodo (replaceFn "hello" true "N" (exTodo 1 "A")) ∧
    (replaceFn "hello" true "N" (exTodo 1 "A")).id = (exTodo 1 "A").id ∧
    (replaceFn "hello" true "N" (exTodo 1 "A")).createdAt = (exTodo 1 "A").createdAt :=
  ⟨by decide, by decide,
   (C6_replace_frame exStoreAB (some 1)
      { text := some " hello ", done := some true } "N" (exTodo 1 "A") "hello" true
      (by decide) (by decide)).1,
   (C6_replace_frame exStoreAB (some 1)
      { text := some " hello ", done := some true } "N" (exTodo 1 "A") "hello" true
      (by decide) (by decide)).2.2.1,
   (C6_replace_frame exStoreAB (some 1)
      { text := some " hello ", done := some true } "N" (exTodo 1 "A") "hello" true
      (by decide) (by decide)).2.2.2.1⟩

/-- Claim C7: a successful patch updates only the supplied fields, always
stamps `updatedAt = now`, preserves `id` and `createdAt`, and changes the
collection only at the patched position; with `text` absent the stored
text is untouched. -/
theorem C7_patch_frame (st : StoreState) (p : Option Int) (body : PatchBody)
    (now : String) (oldT : Todo) (topt : Option String) (dopt : Option Bool)
    (hfind : st.todos.find? (idPred p) = some oldT)
    (hparse : parsePatch body = some (topt, dopt)) :
    (patchTodo st p body now).2 = Response.okTodo (patchFn topt dopt now oldT) ∧
    (patchTodo st p body now).1.nextId = st.nextId ∧
    (patchFn topt dopt now oldT).text = topt.getD oldT.text ∧
    (patchFn topt dopt now oldT).done = dopt.getD oldT.done ∧
    (patchFn topt dopt now oldT).id = oldT.id ∧
    (patchFn topt dopt now oldT).createdAt = oldT.createdAt ∧
    (patchFn topt dopt now oldT).updatedAt = now ∧
    (topt = none → (patchFn topt dopt now oldT).text = oldT.text) ∧
    ∃ l₁ l₂, st.todos = l₁ ++ oldT :: l₂ ∧
      (patchTodo st p body now).1.todos = l₁ ++ patchFn topt dopt now oldT :: l₂ := by
  obtain ⟨l₁, l₂, hl, hall, hx, hu⟩ :=
    updateFirst_of_find? (idPred p) (patchFn topt dopt now) st.todos oldT hfind
  have hstep : patchTodo st p body now =
      ({ st with todos := l₁ ++ patchFn topt dopt now oldT :: l₂ },
       Response.okTodo (patchFn topt dopt now oldT)) := by
    simp [patchTodo, hfind, hparse, hu]
  rw [hstep]
  refine ⟨rfl, rfl, rfl, rfl, rfl, rfl, rfl, ?_, l₁, l₂, hl, rfl⟩
  intro hn
  rw [hn]
  rfl

/-- Claim C7, witness: the spec's example — patching todo 1 with only
`{done: true}` flips `done`, stamps `updatedAt = "N"`, and leaves `text`
and `createdAt` exactly as they were. -/
theorem C7_witness :
    exStoreAB.todos.find? (idPred (some 1)) = some (exTodo 1 "A") ∧
    parsePatch { text := none, done := some true } = some (none, some true) ∧
    (patchTodo exStoreAB (some 1) { text := none, done := some true } "N").2 =
      Response.okTodo (patchFn none (some true) "N" (exTodo 1 "A")) ∧
    (patchFn none (some true) "N" (exTodo 1 "A")).text = (exTodo 1 "A").text ∧
    (patchFn none (some true) "N" (exTodo 1 "A")).done = true ∧
    (patchFn none (some true) "N" (exTodo 1 "A")).createdAt = (exTodo 1 "A").createdAt ∧
    (patchFn none (some true) "N" (exTodo 1 "A")).updatedAt = "N" :=
  ⟨by decide, by decide,
   (C7_patch_frame exStoreAB (some 1) { text := none, done := some true } "N"
      (exTodo 1 "A") none (some true) (by decide) (by decide)).1,
   (C7_patch_frame exStoreAB (some 1) { text := none, done := some true } "N"
      (exTodo 1 "A") none (some true) (by decide) (by decide)).2.2.2.2.2.2.2.1 rfl,
   (C7_patch_frame exStoreAB (some 1) { text := none, done := some true } "N"
      (exTodo 1 "A") none (some true) (by decide) (by decide)).2.2.2.1,
   (C7_patch_frame exStoreAB (some 1) { text := none, done := some true } "N"
      (exTodo 1 "A") none (some true) (by decide) (by decide)).2.2.2.2.2.1,
   (C7_patch_frame exStoreAB (some 1) { text := none, done := some true } "N"
      (exTodo 1 "A") none (some true) (by decide) (by decide)).2.2.2.2.2.2.1⟩

/-- Claim C8: the `done` filter matches by exact boolean equality; a
`done` literal that is neither `"true"` nor `"false"` yields
`VALIDATION_ERROR` (never silently ignored); on a valid literal every item
of the returned page has that exact `done` value and `total` counts
exactly the matching todos. -/
theorem C8_done_filter (st : StoreState) (qry : ListQuery) (raw : String)
    (hdone : qry.done = some raw) :
    (parseBool raw = none ↔ raw ≠ "true" ∧ raw ≠ "false") ∧
    (parseBool raw = none → listTodos st qry = (st, Response.validationError)) ∧
    ∀ b, parseBool raw = some b →
      ∀ pg, (listTodos st qry).2 = Response.okList pg →
        (∀ t ∈ pg.items, t.done = b) ∧
        pg.total =
          ((filterByQ st.todos (qNormalize qry.q)).filter
              (fun t => t.done == b)).length := by
  refine ⟨?_, ?_, ?_⟩
  · unfold parseBool
    by_cases h1 : raw = "true"
    · simp [h1]
    · by_cases h2 : raw = "false" <;> simp [h1, h2]
  · intro hb
    simp [listTodos, filteredItems, hdone, hb]
  · intro b hb pg hl
    have hf : filteredItems st qry =
        some ((filterByQ st.todos (qNormalize qry.q)).filter (fun t => t.done == b)) := by
      simp [filteredItems, hdone, hb]
    have hlt : (listTodos st qry).2 =
        listOk ((filterByQ st.todos (qNormalize qry.q)).filter (fun t => t.done == b))
          qry := by
      simp [listTodos, hf]
    rw [hlt] at hl
    simp only [listOk] at hl
    rw [Response.okList.injEq] at hl
    subst hl
    constructor
    · intro t ht
      have h1 := mem_of_mem_jsSlice ht
      have h2 := (sortTodos_perm _ _ _).mem_iff.mp h1
      have h3 := List.mem_filter.mp h2
      simpa using h3.2
    · exact sortTodos_length _ _ _

/-- Claim C8, witness: the spec's example — with `done` values
`[true, false, true]`, `done=true` returns exactly the 2 matching items
and `done=maybe` yields `VALIDATION_ERROR`. -/
theorem C8_witness :
    exQryDoneTrue.done = some "true" ∧
    parseBool "true" = some true ∧
    (listTodos exStoreD exQryDoneTrue).2 = Response.okList exPageD ∧
    exPageD.items.length = 2 ∧
    exPageD.total =
      ((filterByQ exStoreD.todos (qNormalize exQryDoneTrue.q)).filter
          (fun t => t.done == true)).length ∧
    listTodos exStoreD exQryDoneMaybe = (exStoreD, Response.validationError) :=
  ⟨rfl, by decide, by decide, by decide,
   ((C8_done_filter exStoreD exQryDoneTrue "true" rfl).2.2 true (by decide) exPageD
     (by decide)).2,
   (C8_done_filter exStoreD exQryDoneMaybe "maybe" rfl).2.1 (by decide)⟩

/-- Claim C9: the read operations (list, get-by-id, stats) return the
store state unchanged — contents and insertion order identical — so
repeating any of them yields the identical response; the sort used by the
list response is a projection producing a permutation of its input, not a
mutation of the underlying order. -/
theorem C9_reads_pure (st : StoreState) (qry : ListQuery) (p : Option Int)
    (items : List Todo) (srt ord : String) :
    (listTodos st qry).1 = st ∧
    (getTodo st p).1 = st ∧
    (statsTodos st).1 = st ∧
    (listTodos (listTodos st qry).1 qry).2 = (listTodos st qry).2 ∧
    (getTodo (getTodo st p).1 p).2 = (getTodo st p).2 ∧
    (statsTodos (statsTodos st).1).2 = (statsTodos st).2 ∧
    (sortTodos items srt ord).Perm items := by
  have h1 : (listTodos st qry).1 = st := by
    cases hf : filteredItems st qry <;> simp [listTodos, hf]
  have h2 : (getTodo st p).1 = st := by
    cases hf : st.todos.find? (idPred p) <;> simp [getTodo, hf]
  have h3 : (statsTodos st).1 = st := rfl
  exact ⟨h1, h2, h3, by rw [h1], by rw [h2], by rw [h3],
         sortTodos_perm items srt ord⟩

/-- Claim C10: when the `:id` segment parses to `NaN` (modelled `none`) or
matches no stored id, each of GET, PUT, PATCH and DELETE on
`/v1/todos/{id}` returns the `NOT_FOUND` envelope — never a validation or
internal error — and leaves the store unchanged (`NaN` matches no stored
id in any store). -/
theorem C10_id_miss_404 (st : StoreState) (p : Option Int) (body : PutBody)
    (qb : PatchBody) (now : String)
    (h : st.todos.find? (idPred p) = none) :
    (∀ st2 : StoreState, st2.todos.find? (idPred none) = none) ∧
    getTodo st p = (st, Response.notFound) ∧
    putTodo st p body now = (st, Response.notFound) ∧
    patchTodo st p qb now = (st, Response.notFound) ∧
    deleteTodo st p = (st, Response.notFound) := by
  refine ⟨?_, by simp [getTodo, h], by simp [putTodo, h], by simp [patchTodo, h], ?_⟩
  · intro st2
    rw [List.find?_eq_none]
    intro t ht
    simp [idPred, idMatches]
  · have hfil : st.todos.filter (fun t => !(idPred p t)) = st.todos := by
      rw [List.filter_eq_self]
      intro t ht
      have hft := List.find?_eq_none.mp h t ht
      simpa using hft
    simp only [deleteTodo, hfil]
    simp

/-- Claim C10, witness: id 42 is absent from the two-todo store, and every
id-addressed route returns `NOT_FOUND` with the store unchanged. -/
theorem C10_witness :
    exStoreAB.todos.find? (idPred (some 42)) = none ∧
    getTodo exStoreAB (some 42) = (exStoreAB, Response.notFound) ∧
    putTodo exStoreAB (some 42) exGoodPut "N" = (exStoreAB, Response.notFound) ∧
    patchTodo exStoreAB (some 42) exGoodPatch "N" = (exStoreAB, Response.notFound) ∧
    deleteTodo exStoreAB (some 42) = (exStoreAB, Response.notFound) :=
  ⟨by decide,
   (C10_id_miss_404 exStoreAB (some 42) exGoodPut exGoodPatch "N" (by decide)).2.1,
   (C10_id_miss_404 exStoreAB (some 42) exGoodPut exGoodPatch "N" (by decide)).2.2.1,
   (C10_id_miss_404 exStoreAB (some 42) exGoodPut exGoodPatch "N" (by decide)).2.2.2.1,
   (C10_id_miss_404 exStoreAB (some 42) exGoodPut exGoodPatch "N" (by decide)).2.2.2.2⟩
